import Mathlib

/-!
Shallow embedding of the FlowVk named-buffer and kernel-dispatch engine
(src/src/Buffer.cpp, src/src/Instance.cpp, src/src/internal/InstanceImpl.hpp).

C++ functions that mutate state in place and may throw are modelled as
functions returning the final state together with an optional error, so a
throw after a partial mutation is visible in the result, exactly as the
C++ reference semantics leaves it.  Device-level calls (VMA allocation,
descriptor-set-layout / pipeline creation) are parametrised by an oracle
saying whether the driver accepts the call, and every create/destroy of a
driver object is recorded as an explicit event so that ordering and leak
properties can be stated.
-/

namespace FlowVk

/-- Buffer access modes, from `enum struct BufferAccess` in Buffer.hpp. -/
inductive BufferAccess
  | ReadOnly
  | WriteOnly
  | ReadWrite
deriving DecidableEq, Repr

/-- Error kinds surfaced by the engine (each corresponds to a distinct
`throw std::runtime_error` site in Buffer.cpp / Instance.cpp). -/
inductive Err
  | ConfigurationError      -- empty buffer name
  | AccessMismatch          -- buffer redeclared with different access
  | AllocationFailed        -- vmaCreateBuffer rejected
  | Unallocated             -- operation on buffer with no backing memory
  | SizeExceeded            -- read/write past current size
  | KernelAlreadyExists
  | MetadataNotFound
  | DuplicateBinding
  | InvalidSetIndex         -- "invalid set index in metadata" (defensive)
  | InvalidBinary           -- SPV empty or size not multiple of 4
  | SpvReadFailed           -- SPV file could not be opened/read
  | PipelineBuildFailed     -- any driver-level build failure in addKernel
  | UnknownKernel
  | LayoutMismatch
  | MissingBuffer
  | UnknownBufferName       -- get_state on a name absent from the registry
deriving DecidableEq, Repr

/-- `InstanceImpl::BufferState`: name, access mode, device buffer handle
(`none` models `VK_NULL_HANDLE`; the paired `VmaAllocation` is created and
destroyed together with the buffer handle, so one option covers both),
the bytes held by the current allocation, and the recorded size. -/
structure BufferState where
  name : String
  access : BufferAccess
  buffer : Option Nat
  contents : List Nat
  sizeBytes : Nat
deriving DecidableEq, Repr

/-- Allocator-level events, in the order the code issues them. -/
inductive AllocEvent
  | destroyBuffer (h : Nat)            -- vmaDestroyBuffer
  | createBuffer (h : Nat) (bytes : Nat)  -- successful vmaCreateBuffer
deriving DecidableEq, Repr

/-- Result of an in-place buffer-state mutation that may throw. -/
structure AllocResult where
  state : BufferState
  events : List AllocEvent
  error : Option Err
deriving DecidableEq, Repr

/-- `alloc_or_resize` (Buffer.cpp lines 71-100).  `allocOk` is the
allocator oracle (does `vmaCreateBuffer` succeed), `fresh` the handle it
would return, `freshContents` the (uninitialised) bytes of the new
allocation.  Mirrors the code exactly: early return on `bytes == 0`; early
return when the size already matches and memory exists; otherwise destroy
any existing buffer (nulling the handle) and only then attempt the new
allocation, recording the new size only on success. -/
def alloc_or_resize (allocOk : Bool) (fresh : Nat) (freshContents : List Nat)
    (state : BufferState) (bytes : Nat) : AllocResult :=
  if bytes = 0 then ⟨state, [], none⟩
  else if state.sizeBytes = bytes ∧ state.buffer.isSome then ⟨state, [], none⟩
  else
    let destroyed : BufferState × List AllocEvent :=
      match state.buffer with
      | some h => ({ state with buffer := none }, [AllocEvent.destroyBuffer h])
      | none => (state, [])
    let s1 := destroyed.1
    let ev1 := destroyed.2
    if allocOk then
      let s2 := { s1 with buffer := some fresh, contents := freshContents, sizeBytes := bytes }
      ⟨s2, ev1 ++ [AllocEvent.createBuffer fresh bytes], none⟩
    else
      ⟨s1, ev1, some Err.AllocationFailed⟩

/-- Association-list registry keyed by buffer name (`pimpl->buffers`). -/
abbrev BufferRegistry := List (String × BufferState)

/-- Lookup by name (models `unordered_map::find`). -/
def lookupBuf : BufferRegistry → String → Option BufferState
  | [], _ => none
  | (k, v) :: rest, n => if k = n then some v else lookupBuf rest n

/-- Replace the entry for `n` (models in-place mutation through the
reference returned by `find`/`at`). -/
def updateBuf : BufferRegistry → String → BufferState → BufferRegistry
  | [], _, _ => []
  | (k, v) :: rest, n, st =>
      if k = n then (k, st) :: rest else (k, v) :: updateBuf rest n st

/-- The default-constructed `InstanceImpl::BufferState state{}` with
`name` and `access` filled in, as emplaced by `ensure_buffer_state`:
null handle, no contents, size 0. -/
def freshEntry (name : String) (access : BufferAccess) : BufferState :=
  { name := name, access := access, buffer := none, contents := [], sizeBytes := 0 }

/-- `ensure_buffer_state` (Buffer.cpp lines 102-119): reject empty names;
if the name is unknown, emplace a fresh default entry (null handle, size
0) carrying the requested access; if known with a different access, throw
AccessMismatch; otherwise leave the registry untouched. -/
def ensure_buffer_state (reg : BufferRegistry) (name : String)
    (access : BufferAccess) : Option Err × BufferRegistry :=
  if name = "" then (some Err.ConfigurationError, reg)
  else
    match lookupBuf reg name with
    | none => (none, reg ++ [(name, freshEntry name access)])
    | some st =>
        if st.access = access then (none, reg)
        else (some Err.AccessMismatch, reg)

/-- `Buffer::setBytes` (Buffer.cpp lines 43-55): Unallocated without a
buffer handle, SizeExceeded past the current size, otherwise overwrite the
first `data.length` bytes of the mapped memory. -/
def setBytes (s : BufferState) (data : List Nat) : Option Err × BufferState :=
  match s.buffer with
  | none => (some Err.Unallocated, s)
  | some _ =>
      if s.sizeBytes < data.length then (some Err.SizeExceeded, s)
      else (none, { s with contents := data ++ s.contents.drop data.length })

/-- `Buffer::getBytes` (Buffer.cpp lines 57-69). -/
def getBytes (s : BufferState) (bytes : Nat) : Option Err × List Nat :=
  match s.buffer with
  | none => (some Err.Unallocated, [])
  | some _ =>
      if s.sizeBytes < bytes then (some Err.SizeExceeded, [])
      else (none, s.contents.take bytes)

/-- `Buffer::zeroFill` (Buffer.cpp lines 136-162): requires an allocated
buffer, then a device-side fill of the whole size with zero. -/
def zeroFill (s : BufferState) : Option Err × BufferState :=
  match s.buffer with
  | none => (some Err.Unallocated, s)
  | some _ => (none, { s with contents := List.replicate s.sizeBytes 0 })

/-- `Buffer::resizeBytes` (Buffer.cpp lines 164-172): `alloc_or_resize`,
then `zeroFill` when requested (only reached when the resize did not
throw). -/
def resizeBytes (allocOk : Bool) (fresh : Nat) (freshContents : List Nat)
    (s : BufferState) (newSizeBytes : Nat) (zeroInit : Bool) : AllocResult :=
  let r := alloc_or_resize allocOk fresh freshContents s newSizeBytes
  match r.error with
  | some e => ⟨r.state, r.events, some e⟩
  | none =>
      if zeroInit then
        match zeroFill r.state with
        | (some e, s1) => ⟨s1, r.events, some e⟩
        | (none, s1) => ⟨s1, r.events, none⟩
      else ⟨r.state, r.events, none⟩

/-- Result of `BufferBuilder::allocateBytes` at registry level. -/
structure BuilderResult where
  error : Option Err
  reg : BufferRegistry
  events : List AllocEvent
deriving DecidableEq, Repr

/-- `BufferBuilder::allocateBytes` (Buffer.cpp lines 121-134):
`ensure_buffer_state`, then `alloc_or_resize` on the entry found by
`buffers.at(name)`, mutating it in place (so a partial mutation survives a
throw, as with the C++ reference). -/
def allocateBytes (allocOk : Bool) (fresh : Nat) (freshContents : List Nat)
    (reg : BufferRegistry) (name : String) (access : BufferAccess)
    (bytes : Nat) : BuilderResult :=
  match ensure_buffer_state reg name access with
  | (some e, reg1) => ⟨some e, reg1, []⟩
  | (none, reg1) =>
      match lookupBuf reg1 name with
      | none => ⟨some Err.UnknownBufferName, reg1, []⟩
      | some st =>
          let r := alloc_or_resize allocOk fresh freshContents st bytes
          ⟨r.error, updateBuf reg1 name r.state, r.events⟩

/-! ## Kernel metadata (ShaderMeta.hpp) -/

/-- `shader_meta::Access` — a separate enum from `BufferAccess`. -/
inductive ShaderAccess
  | ReadOnly
  | WriteOnly
  | ReadWrite
deriving DecidableEq, Repr

/-- `shader_meta::Layout`. -/
inductive ShaderLayout
  | Std430
  | Std140
  | Scalar
  | Unknown
deriving DecidableEq, Repr

/-- `shader_meta::BufferBinding`. -/
structure BufferBinding where
  name : String
  typeName : String
  access : ShaderAccess
  layout : ShaderLayout
  set : Nat
  binding : Nat
deriving DecidableEq, Repr

/-- `shader_meta::Module`: a kernel name plus its binding descriptors. -/
structure Module where
  kernelName : String
  buffers : List BufferBinding
deriving DecidableEq, Repr

/-- The external metadata table (`shader_meta::registry::get_module`). -/
abbrev MetaTable := List (String × Module)

/-- Metadata lookup; absence is a lookup failure (MetadataNotFound). -/
def lookupMod : MetaTable → String → Option Module
  | [], _ => none
  | (k, v) :: rest, n => if k = n then some v else lookupMod rest n

/-- `setCount = mod.buffers.empty() ? 0 : maxSet + 1` with
`maxSet = fold of max over binding.set starting at 0`
(Instance.cpp lines 335-338 and 435-438). -/
def setCountOf (buffers : List BufferBinding) : Nat :=
  if buffers.isEmpty then 0
  else (buffers.foldl (fun m b => Nat.max m b.set) 0) + 1

/-! ## Kernel registry ("add kernel", Instance.cpp lines 318-415) -/

/-- `InstanceImpl::KernelState`.  A descriptor-set-layout object is
modelled by its content: the list of binding indices it was built from
(each paired with storage-buffer kind and compute visibility in the code,
which never vary). -/
structure KernelState where
  shaderModule : Option Nat
  pipelineLayout : Option Nat
  pipeline : Option Nat
  setLayouts : List (List Nat)
deriving DecidableEq, Repr

/-- Kernel registry keyed by kernel name (`pimpl->kernels`). -/
abbrev KernelRegistry := List (String × KernelState)

/-- Kernel lookup (models `unordered_map::find`). -/
def lookupKernel : KernelRegistry → String → Option KernelState
  | [], _ => none
  | (k, v) :: rest, n => if k = n then some v else lookupKernel rest n

/-- Driver oracle for the create calls issued by addKernel; `true` means
the corresponding vkCreate* call succeeds. -/
structure Driver where
  setLayoutOk : Bool
  pipelineLayoutOk : Bool
  shaderModuleOk : Bool
  pipelineOk : Bool
deriving DecidableEq, Repr

/-- Driver-object events issued by addKernel.  A create event is recorded
only when the call succeeds; the C++ throw path of addKernel issues no
destroy calls at all. -/
inductive DevEvent
  | createSetLayout (set : Nat) (bindings : List Nat)
  | createPipelineLayout
  | createShaderModule
  | createPipeline
  | destroySetLayout (set : Nat)
  | destroyPipelineLayout
  | destroyShaderModule
  | destroyPipeline
deriving DecidableEq, Repr

/-- Is this event a destruction of a driver object? -/
def DevEvent.isDestroy : DevEvent → Bool
  | DevEvent.destroySetLayout _ => true
  | DevEvent.destroyPipelineLayout => true
  | DevEvent.destroyShaderModule => true
  | DevEvent.destroyPipeline => true
  | _ => false

/-- Grouping loop of addKernel (Instance.cpp lines 344-361): walk the
bindings, reject a set index outside `[0, setCount)` and a duplicate
binding index within a set, and append each binding index to its set's
list. -/
def buildPerSet : List BufferBinding → List (List Nat) →
    Option Err × List (List Nat)
  | [], perSet => (none, perSet)
  | b :: rest, perSet =>
      if h : b.set < perSet.length then
        if b.binding ∈ perSet.get ⟨b.set, h⟩ then
          (some Err.DuplicateBinding, perSet)
        else
          buildPerSet rest (perSet.set b.set (perSet.get ⟨b.set, h⟩ ++ [b.binding]))
      else (some Err.InvalidSetIndex, perSet)

/-- Insert into an ascending list (the deterministic ascending sort the
code obtains with `std::sort` by binding index). -/
def insertAsc (x : Nat) : List Nat → List Nat
  | [] => [x]
  | y :: ys => if x ≤ y then x :: y :: ys else y :: insertAsc x ys

/-- Ascending insertion sort of one set's binding indices. -/
def sortAsc (l : List Nat) : List Nat := l.foldr insertAsc []

/-- `read_spirv_words` (Instance.cpp lines 29-48): `none` models an
unopenable file; an empty byte list or a length not a multiple of 4 is
rejected. -/
def read_spirv_words (file : Option (List Nat)) : Option Err × List Nat :=
  match file with
  | none => (some Err.SpvReadFailed, [])
  | some bytes =>
      if bytes.length = 0 then (some Err.InvalidBinary, [])
      else if bytes.length % 4 ≠ 0 then (some Err.InvalidBinary, [])
      else (none, bytes)

/-- Result of `Instance::addKernel`. -/
structure AddResult where
  error : Option Err
  kernels : KernelRegistry
  events : List DevEvent
deriving DecidableEq, Repr

/-- `Instance::addKernel` (Instance.cpp lines 318-415).  Order of steps as
in the code: duplicate-name check, metadata lookup, setCount derivation,
grouping with duplicate-binding check, per-set sort, one
vkCreateDescriptorSetLayout per set, vkCreatePipelineLayout, SPV read,
vkCreateShaderModule, vkCreateComputePipelines, and only then the emplace
into the registry.  Every throw path simply propagates: no destroy event
is ever issued for the objects created so far in this call. -/
def addKernel (meta : MetaTable) (drv : Driver) (file : Option (List Nat))
    (kernels : KernelRegistry) (kernelName : String) : AddResult :=
  match lookupKernel kernels kernelName with
  | some _ => ⟨some Err.KernelAlreadyExists, kernels, []⟩
  | none =>
  match lookupMod meta kernelName with
  | none => ⟨some Err.MetadataNotFound, kernels, []⟩
  | some m =>
    let setCount := setCountOf m.buffers
    match buildPerSet m.buffers (List.replicate setCount []) with
    | (some e, _) => ⟨some e, kernels, []⟩
    | (none, perSet) =>
      let sorted := perSet.map sortAsc
      if setCount ≠ 0 ∧ ¬ drv.setLayoutOk then
        ⟨some Err.PipelineBuildFailed, kernels, []⟩
      else
        let layoutEvents := (List.range setCount).map
          (fun i => DevEvent.createSetLayout i (sorted.getD i []))
        if drv.pipelineLayoutOk then
          let ev1 := layoutEvents ++ [DevEvent.createPipelineLayout]
          match read_spirv_words file with
          | (some e, _) => ⟨some e, kernels, ev1⟩
          | (none, _) =>
            if drv.shaderModuleOk then
              let ev2 := ev1 ++ [DevEvent.createShaderModule]
              if drv.pipelineOk then
                let kernel : KernelState :=
                  { shaderModule := some 0, pipelineLayout := some 0,
                    pipeline := some 0, setLayouts := sorted }
                ⟨none, kernels ++ [(kernelName, kernel)],
                  ev2 ++ [DevEvent.createPipeline]⟩
              else ⟨some Err.PipelineBuildFailed, kernels, ev2⟩
            else ⟨some Err.PipelineBuildFailed, kernels, ev1⟩
        else
          ⟨some Err.PipelineBuildFailed, kernels, layoutEvents⟩

/-! ## Dispatch engine ("run kernel", Instance.cpp lines 417-594) -/

/-- The mutable state behind one `Instance` that run/add operate on. -/
structure ImplState where
  buffers : BufferRegistry
  kernels : KernelRegistry
deriving DecidableEq, Repr

/-- One event of a run: a command recorded into the one-time command
sequence, or a queue-level step of the One-Time Command Helper.  The call
returns only after the last event of the produced trace. -/
inductive RunEvent
  | preBarrier (bufs : List String)   -- host-write → shader read/write barrier
  | bindPipeline
  | bindSets (n : Nat)                -- vkCmdBindDescriptorSets over n sets
  | dispatch (x y z : Nat)
  | postBarrier (bufs : List String)  -- shader write → host-read barrier
  | submit                            -- vkQueueSubmit
  | waitFence                         -- vkWaitForFences (blocks to completion)
deriving DecidableEq, Repr

/-- Result of `Instance::runSingleKernel`: the optional error, the state
afterwards, the number of transient descriptor sets allocated, and the
trace of recorded/submitted events. -/
structure RunResult where
  error : Option Err
  state : ImplState
  setsAllocated : Nat
  trace : List RunEvent
deriving DecidableEq, Repr

/-- Buffer-resolution loop (Instance.cpp lines 476-508): for each binding,
an undeclared name throws MissingBuffer and a declared-but-unallocated
buffer throws Unallocated; the first offender wins. -/
def resolveBindings (reg : BufferRegistry) : List BufferBinding → Option Err
  | [] => none
  | b :: rest =>
      match lookupBuf reg b.name with
      | none => some Err.MissingBuffer
      | some s =>
          if s.buffer.isSome then resolveBindings reg rest
          else some Err.Unallocated

/-- Effect of the dispatched kernel on the referenced buffers' memory:
the device leaves bytes `deviceOut n` in buffer `n`.  The shader binary's
semantics are outside this core, so the outcome is a parameter. -/
def applyDispatch (deviceOut : String → List Nat) (names : List String)
    (reg : BufferRegistry) : BufferRegistry :=
  names.foldl
    (fun r n =>
      match lookupBuf r n with
      | some s => updateBuf r n { s with contents := deviceOut n }
      | none => r)
    reg

/-- `Instance::runSingleKernel` (Instance.cpp lines 417-594): kernel
lookup, metadata lookup, setCount re-derivation and the LayoutMismatch
defence, transient descriptor-set allocation, buffer resolution, then one
`submit_one_time` recording pre-barrier over every referenced buffer (only
when there are bindings), pipeline bind, descriptor-set bind (only when
`setCount > 0`), the dispatch, and the post-barrier over every referenced
buffer, followed by submit and a blocking fence wait.  The registries are
never written; only referenced buffers' device memory changes. -/
def runSingleKernel (meta : MetaTable) (deviceOut : String → List Nat)
    (st : ImplState) (kernelName : String) (x y z : Nat) : RunResult :=
  match lookupKernel st.kernels kernelName with
  | none => ⟨some Err.UnknownKernel, st, 0, []⟩
  | some ks =>
  match lookupMod meta kernelName with
  | none => ⟨some Err.MetadataNotFound, st, 0, []⟩
  | some m =>
    let setCount := setCountOf m.buffers
    if ks.setLayouts.length ≠ setCount then
      ⟨some Err.LayoutMismatch, st, 0, []⟩
    else
      match resolveBindings st.buffers m.buffers with
      | some e => ⟨some e, st, setCount, []⟩
      | none =>
          let names := m.buffers.map (fun b => b.name)
          let trace :=
            (if m.buffers.isEmpty then [] else [RunEvent.preBarrier names])
            ++ [RunEvent.bindPipeline]
            ++ (if setCount ≠ 0 then [RunEvent.bindSets setCount] else [])
            ++ [RunEvent.dispatch x y z]
            ++ (if m.buffers.isEmpty then [] else [RunEvent.postBarrier names])
            ++ [RunEvent.submit, RunEvent.waitFence]
          ⟨none, { st with buffers := applyDispatch deviceOut names st.buffers },
            setCount, trace⟩

/-! ## Registry lemmas -/

/-- Looking a name up after appending a fresh entry for it finds that
entry, provided the name was absent before. -/
theorem lookupBuf_append_fresh (reg : BufferRegistry) (n : String)
    (st : BufferState) (h : lookupBuf reg n = none) :
    lookupBuf (reg ++ [(n, st)]) n = some st := by
  induction reg with
  | nil => simp [lookupBuf]
  | cons p rest ih =>
      obtain ⟨k, v⟩ := p
      by_cases hk : k = n
      · simp [lookupBuf, hk] at h
      · simp only [lookupBuf, List.cons_append, if_neg hk] at h ⊢
        exact ih h

/-- Replacing an entry with the value it already holds leaves the
registry unchanged. -/
theorem updateBuf_same (reg : BufferRegistry) (n : String) (s : BufferState)
    (h : lookupBuf reg n = some s) : updateBuf reg n s = reg := by
  induction reg with
  | nil => simp [updateBuf]
  | cons p rest ih =>
      obtain ⟨k, v⟩ := p
      by_cases hk : k = n
      · simp only [lookupBuf, if_pos hk] at h
        injection h with h
        subst h
        simp [updateBuf, hk]
      · simp only [lookupBuf, if_neg hk] at h
        simp [updateBuf, hk, ih h]

/-- After an update, lookup of the updated name yields the new value
(when the name was present before). -/
theorem lookupBuf_updateBuf (reg : BufferRegistry) (n : String)
    (s₀ s : BufferState) (h : lookupBuf reg n = some s₀) :
    lookupBuf (updateBuf reg n s) n = some s := by
  induction reg with
  | nil => simp [lookupBuf] at h
  | cons p rest ih =>
      obtain ⟨k, v⟩ := p
      by_cases hk : k = n
      · simp [updateBuf, lookupBuf, hk]
      · simp only [lookupBuf, if_neg hk] at h
        simp only [updateBuf, if_neg hk, lookupBuf, if_neg hk]
        exact ih h

/-! ## Claim C5 -/

/-- Claim C5: for every nonempty buffer name n and access mode a,
declaring n with a when n is unknown creates a fresh zero-sized,
unallocated entry with access a; declaring again with the same a returns
the same registry state (idempotent); and declaring with a different
access fails with AccessMismatch leaving the registry unchanged. -/
theorem declare_fresh_idempotent_mismatch (reg : BufferRegistry)
    (n : String) (a a' : BufferAccess) (hn : n ≠ "") :
    (lookupBuf reg n = none →
      ensure_buffer_state reg n a = (none, reg ++ [(n, freshEntry n a)]))
    ∧ (∀ reg₁, ensure_buffer_state reg n a = (none, reg₁) →
        ensure_buffer_state reg₁ n a = (none, reg₁))
    ∧ (∀ s, lookupBuf reg n = some s → s.access ≠ a' →
        ensure_buffer_state reg n a' = (some Err.AccessMismatch, reg)) := by
  refine ⟨fun h => by simp [ensure_buffer_state, hn, h], fun reg₁ h => ?_,
    fun s hl ha => by simp [ensure_buffer_state, hn, hl, ha]⟩
  cases hl : lookupBuf reg n with
  | none =>
      have he : ensure_buffer_state reg n a = (none, reg ++ [(n, freshEntry n a)]) := by
        simp [ensure_buffer_state, hn, hl]
      rw [he] at h
      injection h with h1 h2
      subst h2
      simp [ensure_buffer_state, hn, lookupBuf_append_fresh reg n _ hl, freshEntry]
  | some s =>
      by_cases ha : s.access = a
      · have he : ensure_buffer_state reg n a = (none, reg) := by
          simp [ensure_buffer_state, hn, hl, ha]
        rw [he] at h
        injection h with h1 h2
        subst h2
        exact he
      · have he : ensure_buffer_state reg n a = (some Err.AccessMismatch, reg) := by
          simp [ensure_buffer_state, hn, hl, ha]
        rw [he] at h
        injection h with h1 h2
        exact absurd h1 (by simp)

/-- Witness for C5 at a concrete registry and name. -/
theorem declare_fresh_idempotent_mismatch_witness :
    ensure_buffer_state [] "b" BufferAccess.ReadOnly =
      (none, [("b", freshEntry "b" BufferAccess.ReadOnly)]) := by
  have h := declare_fresh_idempotent_mismatch []
    "b" BufferAccess.ReadOnly BufferAccess.WriteOnly (by decide)
  exact h.1 rfl

/-! ## Claim C1 -/

/-- A concrete allocated buffer entry used by several counterexamples:
size 4, device handle 7, bytes [1,2,3,4]. -/
def b4 : BufferState :=
  { name := "b", access := BufferAccess.ReadOnly, buffer := some 7,
    contents := [1, 2, 3, 4], sizeBytes := 4 }

/-- Claim C1 is false on the code: resizing the allocated 4-byte entry
`b4` to 5 bytes destroys the old device memory FIRST (the destroy event
precedes the create event), and when the allocator rejects the request
the entry is left with a null handle and its old recorded size — not in
its pre-call state. -/
theorem alloc_or_resize_destroy_first_counterexample :
    (alloc_or_resize true 8 [9, 9, 9, 9, 9] b4 5).events =
      [AllocEvent.destroyBuffer 7, AllocEvent.createBuffer 8 5]
    ∧ (alloc_or_resize false 8 [] b4 5).error = some Err.AllocationFailed
    ∧ (alloc_or_resize false 8 [] b4 5).state ≠ b4
    ∧ (alloc_or_resize false 8 [] b4 5).state.buffer = none := by
  refine ⟨rfl, rfl, ?_, rfl⟩
  intro h
  have := congrArg BufferState.buffer h
  simp [alloc_or_resize, b4] at this

/-- Claim C1 amended: for every buffer entry and resize request of size
S > 0 that differs from the current allocated state, alloc_or_resize
destroys the old device memory BEFORE the new memory exists (the destroy
event precedes the create event); if the allocator rejects the request it
fails with AllocationFailed, leaving the entry unallocated — null handle,
previous size, access, name and host-visible bytes untouched — so the
entry never points at a destroyed-but-not-replaced handle, but it is not
restored to its pre-call state. -/
theorem alloc_or_resize_failure_behavior (s : BufferState)
    (bytes fresh : Nat) (fc fc' : List Nat) (hb : bytes ≠ 0)
    (hns : ¬ (s.sizeBytes = bytes ∧ s.buffer.isSome)) :
    (alloc_or_resize false fresh fc s bytes).error = some Err.AllocationFailed
    ∧ (alloc_or_resize false fresh fc s bytes).state.buffer = none
    ∧ (alloc_or_resize false fresh fc s bytes).state.sizeBytes = s.sizeBytes
    ∧ (alloc_or_resize false fresh fc s bytes).state.access = s.access
    ∧ (alloc_or_resize false fresh fc s bytes).state.name = s.name
    ∧ (alloc_or_resize false fresh fc s bytes).events =
        (match s.buffer with
          | some h => [AllocEvent.destroyBuffer h]
          | none => [])
    ∧ (alloc_or_resize true fresh fc' s bytes).events =
        (match s.buffer with
          | some h => [AllocEvent.destroyBuffer h]
          | none => []) ++ [AllocEvent.createBuffer fresh bytes] := by
  cases hbuf : s.buffer with
  | none => simp [alloc_or_resize, hb, hns, hbuf]
  | some v =>
      have hsz : s.sizeBytes ≠ bytes := fun he => hns ⟨he, by simp [hbuf]⟩
      simp [alloc_or_resize, hb, hbuf, hsz]

/-- Witness for the amended C1 at the concrete entry `b4` resized to 5. -/
theorem alloc_or_resize_failure_behavior_witness :
    (alloc_or_resize false 8 [] b4 5).error = some Err.AllocationFailed
    ∧ (alloc_or_resize false 8 [] b4 5).state.buffer = none := by
  have h := alloc_or_resize_failure_behavior b4 5 8 [] [9, 9, 9, 9, 9]
    (by decide) (by simp [b4])
  exact ⟨h.1, h.2.1⟩

/-! ## Claim C3 -/

/-- Claim C3 is false on the code: resizing the allocated 4-byte buffer
`b4` to size 0 is a no-op, resizing it back to 4 is again a no-op, and
the bytes read afterwards are exactly the bytes written before — the
contents DO carry over across the zero-size transition. -/
theorem resize_zero_roundtrip_counterexample :
    (resizeBytes true 8 [] b4 0 false).error = none
    ∧ (resizeBytes true 9 []
        (resizeBytes true 8 [] b4 0 false).state 4 false).state = b4
    ∧ getBytes (resizeBytes true 9 []
        (resizeBytes true 8 [] b4 0 false).state 4 false).state 4 =
        (none, [1, 2, 3, 4]) := by
  refine ⟨rfl, rfl, rfl⟩

/-- Claim C3 amended: for every buffer allocated at size S > 0,
Buffer::resizeBytes to size 0 is a complete no-op (same state, no
allocator events, no error) because alloc_or_resize returns immediately
on a zero size; resizing back to S is again a no-op because the size
already matches and memory exists; hence the prior contents are preserved
exactly, not discarded. -/
theorem resize_zero_roundtrip_preserves (s : BufferState) (h : Nat)
    (fresh1 fresh2 : Nat) (fc1 fc2 : List Nat)
    (hbuf : s.buffer = some h) (hpos : 0 < s.sizeBytes) :
    resizeBytes true fresh1 fc1 s 0 false = ⟨s, [], none⟩
    ∧ resizeBytes true fresh2 fc2 s s.sizeBytes false = ⟨s, [], none⟩
    ∧ (resizeBytes true fresh2 fc2
        (resizeBytes true fresh1 fc1 s 0 false).state s.sizeBytes false).state
        = s
    ∧ getBytes (resizeBytes true fresh2 fc2
        (resizeBytes true fresh1 fc1 s 0 false).state s.sizeBytes false).state
        s.sizeBytes = (none, s.contents.take s.sizeBytes) := by
  have h0 : resizeBytes true fresh1 fc1 s 0 false = ⟨s, [], none⟩ := by
    simp [resizeBytes, alloc_or_resize]
  have hS : resizeBytes true fresh2 fc2 s s.sizeBytes false = ⟨s, [], none⟩ := by
    have hne : s.sizeBytes ≠ 0 := Nat.pos_iff_ne_zero.mp hpos
    simp [resizeBytes, alloc_or_resize, hne, hbuf]
  refine ⟨h0, hS, ?_, ?_⟩
  · rw [h0, hS]
  · rw [h0, hS]
    simp [getBytes, hbuf]

/-- Witness for the amended C3 at the concrete entry `b4`. -/
theorem resize_zero_roundtrip_preserves_witness :
    resizeBytes true 8 [] b4 0 false = ⟨b4, [], none⟩
    ∧ getBytes (resizeBytes true 9 []
        (resizeBytes true 8 [] b4 0 false).state 4 false).state 4 =
        (none, [1, 2, 3, 4]) := by
  have h := resize_zero_roundtrip_preserves b4 7 8 9 [] [] rfl (by decide)
  exact ⟨h.1, h.2.2.2⟩

/-! ## Claim C4 -/

/-- Reduction of `alloc_or_resize` on a successful allocation that is not
one of the two no-op cases: old memory destroyed, fresh handle and
contents installed, new size recorded. -/
theorem alloc_or_resize_success (s : BufferState) (bytes fresh : Nat)
    (fc : List Nat) (hb : bytes ≠ 0)
    (hns : ¬ (s.sizeBytes = bytes ∧ s.buffer.isSome)) :
    alloc_or_resize true fresh fc s bytes =
      ⟨{ s with buffer := some fresh, contents := fc, sizeBytes := bytes },
        (match s.buffer with
          | some h => [AllocEvent.destroyBuffer h]
          | none => []) ++ [AllocEvent.createBuffer fresh bytes], none⟩ := by
  cases hbuf : s.buffer with
  | none => simp [alloc_or_resize, hb, hns, hbuf]
  | some v =>
      have hsz : s.sizeBytes ≠ bytes := fun he => hns ⟨he, by simp [hbuf]⟩
      simp [alloc_or_resize, hb, hbuf, hsz]

/-- Claim C4 is false on the code: with the 4-byte allocated entry `b4`
registered under "b", re-declaring "b" with the same access mode and a
different nonzero requested size (3) does NOT keep the old size — it
destroys and reallocates the device memory immediately and records size
3. -/
theorem allocate_redeclare_resizes_counterexample :
    (allocateBytes true 8 [0, 0, 0] [("b", b4)] "b"
        BufferAccess.ReadOnly 3).error = none
    ∧ ((lookupBuf (allocateBytes true 8 [0, 0, 0] [("b", b4)] "b"
        BufferAccess.ReadOnly 3).reg "b").map (fun s => s.sizeBytes)) = some 3
    ∧ ((lookupBuf (allocateBytes true 8 [0, 0, 0] [("b", b4)] "b"
        BufferAccess.ReadOnly 3).reg "b").map (fun s => s.sizeBytes)) ≠ some 4
    ∧ (allocateBytes true 8 [0, 0, 0] [("b", b4)] "b"
        BufferAccess.ReadOnly 3).events =
        [AllocEvent.destroyBuffer 7, AllocEvent.createBuffer 8 3] := by
  refine ⟨rfl, rfl, by decide, rfl⟩

/-- Claim C4 amended: re-declaring an existing buffer name with the same
access mode keeps the old size only when the requested size is 0 (the
whole call is then a no-op on the registry); a nonzero requested size
that differs from the current allocated state reallocates immediately,
and the entry then records the requested size. -/
theorem allocate_redeclare_behavior (reg : BufferRegistry) (n : String)
    (s : BufferState) (a : BufferAccess) (fresh : Nat) (fc : List Nat)
    (hl : lookupBuf reg n = some s) (ha : s.access = a) (hn : n ≠ "") :
    (∀ ok, allocateBytes ok fresh fc reg n a 0 = ⟨none, reg, []⟩)
    ∧ (∀ bytes, bytes ≠ 0 → ¬ (s.sizeBytes = bytes ∧ s.buffer.isSome) →
        (allocateBytes true fresh fc reg n a bytes).error = none
        ∧ lookupBuf (allocateBytes true fresh fc reg n a bytes).reg n =
            some { s with buffer := some fresh, contents := fc, sizeBytes := bytes }) := by
  have he : ensure_buffer_state reg n a = (none, reg) := by
    simp [ensure_buffer_state, hn, hl, ha]
  constructor
  · intro ok
    have hz : alloc_or_resize ok fresh fc s 0 = ⟨s, [], none⟩ := by
      simp [alloc_or_resize]
    simp [allocateBytes, he, hl, hz, updateBuf_same reg n s hl]
  · intro bytes hb hns
    have hsucc := alloc_or_resize_success s bytes fresh fc hb hns
    constructor
    · simp [allocateBytes, he, hl, hsucc]
    · simp only [allocateBytes, he, hl, hsucc]
      exact lookupBuf_updateBuf reg n s _ hl

/-- Witness for the amended C4 at a concrete registry holding `b4`. -/
theorem allocate_redeclare_behavior_witness :
    allocateBytes true 8 [0, 0, 0] [("b", b4)] "b" BufferAccess.ReadOnly 0 =
      ⟨none, [("b", b4)], []⟩
    ∧ (allocateBytes true 8 [0, 0, 0] [("b", b4)] "b"
        BufferAccess.ReadOnly 3).error = none := by
  have h := allocate_redeclare_behavior [("b", b4)] "b" b4
    BufferAccess.ReadOnly 8 [0, 0, 0] rfl rfl (by decide)
  exact ⟨h.1 true, (h.2 3 (by decide) (by simp [b4])).1⟩

/-! ## Kernel-registry lemmas -/

theorem lookupKernel_append_fresh (ks : KernelRegistry) (n : String)
    (k : KernelState) (h : lookupKernel ks n = none) :
    lookupKernel (ks ++ [(n, k)]) n = some k := by
  induction ks with
  | nil => simp [lookupKernel]
  | cons p rest ih =>
      obtain ⟨key, v⟩ := p
      by_cases hk : key = n
      · simp [lookupKernel, hk] at h
      · simp only [lookupKernel, List.cons_append, if_neg hk] at h ⊢
        exact ih h

theorem buildPerSet_ok_length :
    ∀ (bs : List BufferBinding) (perSet res : List (List Nat)),
      buildPerSet bs perSet = (none, res) → res.length = perSet.length := by
  intro bs
  induction bs with
  | nil =>
      intro perSet res h
      simp [buildPerSet] at h
      rw [h]
  | cons b rest ih =>
      intro perSet res h
      by_cases hs : b.set < perSet.length
      · rw [buildPerSet, dif_pos hs] at h
        by_cases hmem : b.binding ∈ perSet.get ⟨b.set, hs⟩
        · rw [if_pos hmem] at h
          simp at h
        · rw [if_neg hmem] at h
          have := ih _ _ h
          rwa [List.length_set] at this
      · rw [buildPerSet, dif_neg hs] at h
        simp at h

theorem le_foldl_maxSet :
    ∀ (l : List BufferBinding) (i : Nat),
      i ≤ l.foldl (fun m b => Nat.max m b.set) i := by
  intro l
  induction l with
  | nil => intro i; exact Nat.le_refl i
  | cons b rest ih =>
      intro i
      exact Nat.le_trans (Nat.le_max_left i b.set) (ih (Nat.max i b.set))

theorem mem_le_foldl_maxSet :
    ∀ (l : List BufferBinding) (b : BufferBinding) (i : Nat), b ∈ l →
      b.set ≤ l.foldl (fun m c => Nat.max m c.set) i := by
  intro l
  induction l with
  | nil => intro b i h; cases h
  | cons c rest ih =>
      intro b i h
      rcases List.mem_cons.mp h with rfl | hmem
      · exact Nat.le_trans (Nat.le_max_right i b.set)
          (le_foldl_maxSet rest (Nat.max i b.set))
      · exact ih b (Nat.max i c.set) hmem

theorem foldl_maxSet_attained :
    ∀ (l : List BufferBinding) (i : Nat),
      l.foldl (fun m c => Nat.max m c.set) i = i
      ∨ ∃ b ∈ l, l.foldl (fun m c => Nat.max m c.set) i = b.set := by
  intro l
  induction l with
  | nil => intro i; exact Or.inl rfl
  | cons c rest ih =>
      intro i
      rcases ih (Nat.max i c.set) with h | ⟨b, hb, he⟩
      · rcases Nat.le_total i c.set with hle | hle
        · refine Or.inr ⟨c, List.mem_cons_self _ _, ?_⟩
          rw [List.foldl_cons, h]
          exact Nat.max_eq_right hle
        · refine Or.inl ?_
          rw [List.foldl_cons, h]
          exact Nat.max_eq_left hle
      · exact Or.inr ⟨b, List.mem_cons_of_mem _ hb, by rw [List.foldl_cons, he]⟩

theorem setCountOf_spec (bs : List BufferBinding) :
    (∀ b ∈ bs, b.set < setCountOf bs)
    ∧ (bs = [] → setCountOf bs = 0)
    ∧ (bs ≠ [] → ∃ b ∈ bs, setCountOf bs = b.set + 1) := by
  refine ⟨?_, ?_, ?_⟩
  · intro b hb
    have hne : bs ≠ [] := by intro h; rw [h] at hb; cases hb
    have : bs.isEmpty = false := by
      cases bs with
      | nil => exact absurd rfl hne
      | cons x xs => rfl
    rw [setCountOf, this]
    simp only [Bool.false_eq_true, if_false]
    exact Nat.lt_succ_of_le (mem_le_foldl_maxSet bs b 0 hb)
  · intro h
    rw [h]; rfl
  · intro hne
    have hemp : bs.isEmpty = false := by
      cases bs with
      | nil => exact absurd rfl hne
      | cons x xs => rfl
    rcases foldl_maxSet_attained bs 0 with h0 | ⟨b, hb, he⟩
    · cases bs with
      | nil => exact absurd rfl hne
      | cons c rest =>
          refine ⟨c, List.mem_cons_self _ _, ?_⟩
          have hle : c.set ≤ 0 := by
            have := mem_le_foldl_maxSet (c :: rest) c 0 (List.mem_cons_self _ _)
            rwa [h0] at this
          rw [setCountOf, hemp]
          simp only [Bool.false_eq_true, if_false]
          rw [h0, Nat.le_zero.mp hle]
    · refine ⟨b, hb, ?_⟩
      rw [setCountOf, hemp]
      simp only [Bool.false_eq_true, if_false]
      rw [he]

theorem addKernel_ok_shape (meta : MetaTable) (drv : Driver)
    (file : Option (List Nat)) (kernels : KernelRegistry) (name : String)
    (m : Module) (hm : lookupMod meta name = some m)
    (hok : (addKernel meta drv file kernels name).error = none) :
    ∃ perSet, buildPerSet m.buffers
        (List.replicate (setCountOf m.buffers) []) = (none, perSet)
      ∧ (addKernel meta drv file kernels name).kernels =
          kernels ++ [(name,
            { shaderModule := some 0, pipelineLayout := some 0,
              pipeline := some 0, setLayouts := perSet.map sortAsc })]
      ∧ lookupKernel kernels name = none := by
  cases hk : lookupKernel kernels name with
  | some k0 => simp [addKernel, hk] at hok
  | none =>
    cases hps : buildPerSet m.buffers (List.replicate (setCountOf m.buffers) []) with
    | mk oerr perSet =>
      cases oerr with
      | some e => simp [addKernel, hk, hm, hps] at hok
      | none =>
        refine ⟨perSet, rfl, ?_, rfl⟩
        obtain ⟨sl, pl, sm, pk⟩ := drv
        cases hr : read_spirv_words file with
        | mk rerr words =>
          by_cases hsc : setCountOf m.buffers = 0
          · rw [hsc] at hps
            simp only [List.replicate_zero] at hps
            cases rerr with
            | some e =>
                cases sl <;> cases pl <;>
                  simp [addKernel, hk, hm, hps, hr, hsc] at hok
            | none =>
                cases sl <;> cases pl <;> cases sm <;> cases pk <;>
                  simp [addKernel, hk, hm, hps, hr, hsc] at hok ⊢
          · cases rerr with
            | some e =>
                cases sl <;> cases pl <;>
                  simp [addKernel, hk, hm, hps, hr, hsc] at hok
            | none =>
                cases sl <;> cases pl <;> cases sm <;> cases pk <;>
                  simp [addKernel, hk, hm, hps, hr, hsc] at hok ⊢

/-! ## Claim C2 -/

/-- The kernel record addKernel emplaces on success, as a function of its
built binding-layout objects. -/
def builtKernel (layouts : List (List Nat)) : KernelState :=
  { shaderModule := some 0, pipelineLayout := some 0, pipeline := some 0,
    setLayouts := layouts }

/-- Concrete binding descriptors used by the kernel fixtures. -/
def bindA : BufferBinding :=
  { name := "A", typeName := "float", access := ShaderAccess.ReadOnly,
    layout := ShaderLayout.Std430, set := 0, binding := 0 }

def bindB : BufferBinding :=
  { name := "B", typeName := "float", access := ShaderAccess.WriteOnly,
    layout := ShaderLayout.Std430, set := 2, binding := 1 }

def bindC : BufferBinding :=
  { name := "C", typeName := "float", access := ShaderAccess.ReadWrite,
    layout := ShaderLayout.Std430, set := 2, binding := 0 }

/-- Metadata table holding one kernel "k" with a single binding. -/
def meta1 : MetaTable := [("k", { kernelName := "k", buffers := [bindA] })]

/-- Metadata table holding one kernel "k" with bindings at sets 0 and 2
(set 1 skipped). -/
def meta02 : MetaTable := [("k", { kernelName := "k", buffers := [bindA, bindB, bindC] })]

/-- A driver accepting every create call. -/
def drvOk : Driver :=
  { setLayoutOk := true, pipelineLayoutOk := true, shaderModuleOk := true,
    pipelineOk := true }

/-- A driver rejecting exactly the compute-pipeline build. -/
def drvNoPipeline : Driver :=
  { setLayoutOk := true, pipelineLayoutOk := true, shaderModuleOk := true,
    pipelineOk := false }

/-- A well-formed 4-byte kernel binary. -/
def spv4 : Option (List Nat) := some [3, 2, 35, 7]

/-- Claim C2 meets a code bug: when the compute-pipeline build fails,
addKernel throws and the kernel is indeed absent from the registry, but
the descriptor-set layout, the pipeline layout and the shader module
already created for this kernel are never destroyed — the error
propagates while the created driver objects leak (created events with no
matching destroy events). -/
theorem addKernel_leaks_on_pipeline_failure :
    (addKernel meta1 drvNoPipeline spv4 [] "k").error =
      some Err.PipelineBuildFailed
    ∧ (addKernel meta1 drvNoPipeline spv4 [] "k").kernels = []
    ∧ lookupKernel (addKernel meta1 drvNoPipeline spv4 [] "k").kernels "k" = none
    ∧ (addKernel meta1 drvNoPipeline spv4 [] "k").events =
        [DevEvent.createSetLayout 0 [0], DevEvent.createPipelineLayout,
          DevEvent.createShaderModule]
    ∧ ((addKernel meta1 drvNoPipeline spv4 [] "k").events.filter
        (fun e => e.isDestroy)) = []
    ∧ (addKernel meta1 drvNoPipeline spv4 [] "k").events ≠ [] := by
  refine ⟨rfl, rfl, rfl, rfl, rfl, by decide⟩

/-! ## Claim C7 -/

/-- Claim C7: for every add-kernel call that succeeds, the number of
binding-layout objects of the registered kernel is an upper bound for
every binding's set index, is max(binding.set)+1 (attained by some
binding) when there are bindings, and is 0 when the metadata has no
bindings; in particular the concrete metadata with bindings at sets
{0,2} yields exactly 3 binding-layout objects with the layout for set 1
empty. -/
theorem addKernel_setLayout_count :
    (∀ (meta : MetaTable) (drv : Driver) (file : Option (List Nat))
        (kernels : KernelRegistry) (name : String) (m : Module),
      lookupMod meta name = some m →
      (addKernel meta drv file kernels name).error = none →
      ∃ ks, lookupKernel (addKernel meta drv file kernels name).kernels name = some ks
        ∧ (∀ b ∈ m.buffers, b.set < ks.setLayouts.length)
        ∧ (m.buffers = [] → ks.setLayouts.length = 0)
        ∧ (m.buffers ≠ [] → ∃ b ∈ m.buffers, ks.setLayouts.length = b.set + 1))
    ∧ ((addKernel meta02 drvOk spv4 [] "k").error = none
        ∧ ∃ ks, lookupKernel (addKernel meta02 drvOk spv4 [] "k").kernels "k" = some ks
            ∧ ks.setLayouts.length = 3
            ∧ ks.setLayouts.getD 1 [0] = []) := by
  constructor
  · intro meta drv file kernels name m hm hok
    obtain ⟨perSet, hps, hkern, hk⟩ :=
      addKernel_ok_shape meta drv file kernels name m hm hok
    refine ⟨builtKernel (perSet.map sortAsc), ?_, ?_, ?_, ?_⟩
    · rw [hkern]
      exact lookupKernel_append_fresh kernels name _ hk
    all_goals
      have hlen : (perSet.map sortAsc).length = setCountOf m.buffers := by
        rw [List.length_map]
        have := buildPerSet_ok_length m.buffers _ _ hps
        simpa using this
    · intro b hb
      simpa [builtKernel, hlen] using (setCountOf_spec m.buffers).1 b hb
    · intro h
      simpa [builtKernel, hlen] using (setCountOf_spec m.buffers).2.1 h
    · intro h
      obtain ⟨b, hb, he⟩ := (setCountOf_spec m.buffers).2.2 h
      exact ⟨b, hb, by simpa [builtKernel, hlen] using he⟩
  · exact ⟨rfl, ⟨builtKernel [[0], [], [0, 1]], rfl, rfl, rfl⟩⟩

/-- Witness for C7's general part at the concrete {0,2} metadata. -/
theorem addKernel_setLayout_count_witness :
    ∃ ks, lookupKernel (addKernel meta02 drvOk spv4 [] "k").kernels "k" = some ks
      ∧ (∀ b ∈ ({ kernelName := "k", buffers := [bindA, bindB, bindC] } : Module).buffers,
          b.set < ks.setLayouts.length)
      ∧ (({ kernelName := "k", buffers := [bindA, bindB, bindC] } : Module).buffers = [] →
          ks.setLayouts.length = 0)
      ∧ (({ kernelName := "k", buffers := [bindA, bindB, bindC] } : Module).buffers ≠ [] →
          ∃ b ∈ ({ kernelName := "k", buffers := [bindA, bindB, bindC] } : Module).buffers,
            ks.setLayouts.length = b.set + 1) :=
  addKernel_setLayout_count.1 meta02 drvOk spv4 [] "k"
    { kernelName := "k", buffers := [bindA, bindB, bindC] } rfl rfl

/-! ## Claim C8 -/

/-- When some binding names an undeclared buffer and every binding names
either an undeclared buffer or a declared-and-allocated one, the
resolution loop fails with MissingBuffer. -/
theorem resolveBindings_missing (reg : BufferRegistry) :
    ∀ bs : List BufferBinding,
      (∃ b ∈ bs, lookupBuf reg b.name = none) →
      (∀ b ∈ bs, lookupBuf reg b.name = none ∨
        ∃ s, lookupBuf reg b.name = some s ∧ s.buffer.isSome) →
      resolveBindings reg bs = some Err.MissingBuffer := by
  intro bs
  induction bs with
  | nil =>
      intro hex _
      obtain ⟨b, hb, _⟩ := hex
      cases hb
  | cons c rest ih =>
      intro hex hall
      cases hl : lookupBuf reg c.name with
      | none => simp [resolveBindings, hl]
      | some s =>
          have hs : s.buffer.isSome := by
            rcases hall c (List.mem_cons_self _ _) with h | ⟨s', hs', hb'⟩
            · rw [hl] at h; exact absurd h (by simp)
            · rw [hl] at hs'
              injection hs' with he
              rw [he]
              exact hb'
          have hrest : ∃ b ∈ rest, lookupBuf reg b.name = none := by
            obtain ⟨b, hb, hnone⟩ := hex
            rcases List.mem_cons.mp hb with rfl | hbr
            · rw [hl] at hnone; cases hnone
            · exact ⟨b, hbr, hnone⟩
          have := ih hrest (fun b hb => hall b (List.mem_cons_of_mem _ hb))
          simpa [resolveBindings, hl, hs] using this

/-- Claim C8: running a registered kernel whose metadata names a buffer
that was never declared fails with MissingBuffer, and the whole state —
the kernel registry and every declared buffer with its name, access,
size, handle and contents — is left exactly as before the call
(hypothesis: the bindings listed before the missing one are declared and
allocated, so the missing buffer is the first offender the loop meets). -/
theorem run_missing_buffer_frame (meta : MetaTable)
    (deviceOut : String → List Nat) (st : ImplState) (name : String)
    (x y z : Nat) (ks : KernelState) (m : Module)
    (hk : lookupKernel st.kernels name = some ks)
    (hm : lookupMod meta name = some m)
    (hlen : ks.setLayouts.length = setCountOf m.buffers)
    (hex : ∃ b ∈ m.buffers, lookupBuf st.buffers b.name = none)
    (hall : ∀ b ∈ m.buffers, lookupBuf st.buffers b.name = none ∨
      ∃ s, lookupBuf st.buffers b.name = some s ∧ s.buffer.isSome) :
    (runSingleKernel meta deviceOut st name x y z).error = some Err.MissingBuffer
    ∧ (runSingleKernel meta deviceOut st name x y z).state = st
    ∧ (runSingleKernel meta deviceOut st name x y z).state.buffers = st.buffers
    ∧ (runSingleKernel meta deviceOut st name x y z).state.kernels = st.kernels := by
  have hres := resolveBindings_missing st.buffers m.buffers hex hall
  simp [runSingleKernel, hk, hm, hlen, hres]

/-- An instance state with no buffers and kernel "k" registered. -/
def stMiss : ImplState := { buffers := [], kernels := [("k", builtKernel [[0]])] }

/-- Witness for C8: kernel "k" references buffer "A", which is not
declared in `stMiss`. -/
theorem run_missing_buffer_frame_witness :
    (runSingleKernel meta1 (fun _ => []) stMiss "k" 1 1 1).error =
      some Err.MissingBuffer
    ∧ (runSingleKernel meta1 (fun _ => []) stMiss "k" 1 1 1).state = stMiss := by
  have h := run_missing_buffer_frame meta1 (fun _ => []) stMiss "k" 1 1 1
    (builtKernel [[0]]) { kernelName := "k", buffers := [bindA] }
    rfl rfl rfl ⟨bindA, by simp, rfl⟩
    (by intro b hb; simp at hb; subst hb; exact Or.inl rfl)
  exact ⟨h.1, h.2.1⟩

/-! ## Claim C10 -/

/-- Claim C10: running a registered kernel whose metadata lists zero
buffer bindings succeeds with setCount 0: no descriptor sets are
allocated, no pre- or post-dispatch barriers are recorded, the state is
untouched, and the submitted command sequence is exactly pipeline bind
followed by the dispatch with the given workgroup counts. -/
theorem run_no_bindings (meta : MetaTable) (deviceOut : String → List Nat)
    (st : ImplState) (name : String) (x y z : Nat) (ks : KernelState)
    (m : Module) (hk : lookupKernel st.kernels name = some ks)
    (hm : lookupMod meta name = some m) (hsl : ks.setLayouts = [])
    (hb : m.buffers = []) :
    (runSingleKernel meta deviceOut st name x y z).error = none
    ∧ (runSingleKernel meta deviceOut st name x y z).setsAllocated = 0
    ∧ (runSingleKernel meta deviceOut st name x y z).state = st
    ∧ (runSingleKernel meta deviceOut st name x y z).trace =
        [RunEvent.bindPipeline, RunEvent.dispatch x y z,
          RunEvent.submit, RunEvent.waitFence] := by
  simp [runSingleKernel, hk, hm, hsl, hb, setCountOf, resolveBindings,
    applyDispatch]

/-- Metadata table holding one kernel "e" with no bindings. -/
def metaEmpty : MetaTable := [("e", { kernelName := "e", buffers := [] })]

/-- An instance state with kernel "e" registered with zero set layouts. -/
def stEmpty : ImplState := { buffers := [], kernels := [("e", builtKernel [])] }

/-- Witness for C10 at the zero-binding kernel "e". -/
theorem run_no_bindings_witness :
    (runSingleKernel metaEmpty (fun _ => []) stEmpty "e" 2 3 4).error = none
    ∧ (runSingleKernel metaEmpty (fun _ => []) stEmpty "e" 2 3 4).trace =
        [RunEvent.bindPipeline, RunEvent.dispatch 2 3 4,
          RunEvent.submit, RunEvent.waitFence] := by
  have h := run_no_bindings metaEmpty (fun _ => []) stEmpty "e" 2 3 4
    (builtKernel []) { kernelName := "e", buffers := [] } rfl rfl rfl rfl
  exact ⟨h.1, h.2.2.2⟩

/-! ## Claim C6 -/

/-- Claim C6: in every successful run of a kernel with at least one
binding, the recorded and executed sequence places the host-to-device
barrier covering every referenced buffer strictly before the dispatch,
the dispatch strictly before the device-to-host barrier covering every
referenced buffer, and that barrier strictly before the blocking fence
wait, which is the final event before the call returns. -/
theorem run_barrier_ordering (meta : MetaTable)
    (deviceOut : String → List Nat) (st : ImplState) (name : String)
    (x y z : Nat) (ks : KernelState) (m : Module)
    (hk : lookupKernel st.kernels name = some ks)
    (hm : lookupMod meta name = some m)
    (hlen : ks.setLayouts.length = setCountOf m.buffers)
    (hne : m.buffers ≠ [])
    (hres : resolveBindings st.buffers m.buffers = none) :
    (runSingleKernel meta deviceOut st name x y z).error = none
    ∧ ∃ i j k w, i < j ∧ j < k ∧ k < w
      ∧ w + 1 = (runSingleKernel meta deviceOut st name x y z).trace.length
      ∧ (runSingleKernel meta deviceOut st name x y z).trace.getD i RunEvent.submit =
          RunEvent.preBarrier (m.buffers.map (fun b => b.name))
      ∧ (runSingleKernel meta deviceOut st name x y z).trace.getD j RunEvent.submit =
          RunEvent.dispatch x y z
      ∧ (runSingleKernel meta deviceOut st name x y z).trace.getD k RunEvent.submit =
          RunEvent.postBarrier (m.buffers.map (fun b => b.name))
      ∧ (runSingleKernel meta deviceOut st name x y z).trace.getD w RunEvent.submit =
          RunEvent.waitFence := by
  have hemp : m.buffers.isEmpty = false := by
    cases hbs : m.buffers with
    | nil => exact absurd hbs hne
    | cons c rest => rfl
  have hsc : setCountOf m.buffers ≠ 0 := by
    rw [setCountOf, hemp]
    simp
  refine ⟨?_, 0, 3, 4, 6, by decide, by decide, by decide, ?_, ?_, ?_, ?_, ?_⟩ <;>
    simp [runSingleKernel, hk, hm, hlen, hres, hemp, hsc, List.getD]

/-- An instance state for the ordering witness: buffers "A", "B", "C"
declared and allocated, kernel "k" of `meta02` registered. -/
def stRun : ImplState :=
  { buffers := [("A", { name := "A", access := BufferAccess.ReadOnly, buffer := some 1, contents := [1], sizeBytes := 1 }),
                ("B", { name := "B", access := BufferAccess.WriteOnly, buffer := some 2, contents := [0], sizeBytes := 1 }),
                ("C", { name := "C", access := BufferAccess.ReadWrite, buffer := some 3, contents := [0], sizeBytes := 1 })],
    kernels := [("k", builtKernel [[0], [], [0, 1]])] }

/-- Witness for C6 at the concrete three-buffer kernel "k". -/
theorem run_barrier_ordering_witness :
    (runSingleKernel meta02 (fun _ => [5]) stRun "k" 1 1 1).error = none
    ∧ ∃ i j k w, i < j ∧ j < k ∧ k < w
      ∧ w + 1 = (runSingleKernel meta02 (fun _ => [5]) stRun "k" 1 1 1).trace.length
      ∧ (runSingleKernel meta02 (fun _ => [5]) stRun "k" 1 1 1).trace.getD i RunEvent.submit =
          RunEvent.preBarrier (([bindA, bindB, bindC] : List BufferBinding).map (fun b => b.name))
      ∧ (runSingleKernel meta02 (fun _ => [5]) stRun "k" 1 1 1).trace.getD j RunEvent.submit =
          RunEvent.dispatch 1 1 1
      ∧ (runSingleKernel meta02 (fun _ => [5]) stRun "k" 1 1 1).trace.getD k RunEvent.submit =
          RunEvent.postBarrier (([bindA, bindB, bindC] : List BufferBinding).map (fun b => b.name))
      ∧ (runSingleKernel meta02 (fun _ => [5]) stRun "k" 1 1 1).trace.getD w RunEvent.submit =
          RunEvent.waitFence :=
  run_barrier_ordering meta02 (fun _ => [5]) stRun "k" 1 1 1
    (builtKernel [[0], [], [0, 1]]) { kernelName := "k", buffers := [bindA, bindB, bindC] }
    rfl rfl rfl (by decide) rfl

/-! ## Claim C9 -/

/-- The same buffer state with only its access mode replaced. -/
def withAccess (s : BufferState) (a : BufferAccess) : BufferState :=
  { s with access := a }

/-- Reassign every registry entry's access mode (by name). -/
def mapAccess (f : String → BufferAccess) (reg : BufferRegistry) : BufferRegistry :=
  reg.map (fun p => (p.1, withAccess p.2 (f p.1)))

/-- Lookup commutes with an access reassignment. -/
theorem lookupBuf_mapAccess (f : String → BufferAccess) (reg : BufferRegistry)
    (n : String) :
    lookupBuf (mapAccess f reg) n =
      (lookupBuf reg n).map (fun s => withAccess s (f n)) := by
  induction reg with
  | nil => rfl
  | cons p rest ih =>
      obtain ⟨k, v⟩ := p
      by_cases hk : k = n
      · subst hk
        simp [mapAccess, lookupBuf]
      · simp [mapAccess, lookupBuf, hk] at ih ⊢
        exact ih

/-- Dispatch-time buffer resolution never consults the access mode. -/
theorem resolveBindings_mapAccess (f : String → BufferAccess)
    (reg : BufferRegistry) :
    ∀ bs : List BufferBinding,
      resolveBindings (mapAccess f reg) bs = resolveBindings reg bs := by
  intro bs
  induction bs with
  | nil => rfl
  | cons b rest ih =>
      rw [resolveBindings, resolveBindings, lookupBuf_mapAccess]
      cases hl : lookupBuf reg b.name with
      | none => rfl
      | some s => cases s.buffer <;> simp [withAccess, ih]

/-- Registry update commutes with an access reassignment. -/
theorem updateBuf_mapAccess (f : String → BufferAccess) (reg : BufferRegistry)
    (n : String) (st : BufferState) :
    updateBuf (mapAccess f reg) n (withAccess st (f n)) =
      mapAccess f (updateBuf reg n st) := by
  induction reg with
  | nil => rfl
  | cons p rest ih =>
      obtain ⟨k, v⟩ := p
      by_cases hk : k = n
      · subst hk
        simp [mapAccess, updateBuf]
      · simp [mapAccess, updateBuf, hk] at ih ⊢
        exact ih

/-- The dispatch effect on buffer memory commutes with an access
reassignment. -/
theorem applyDispatch_mapAccess (deviceOut : String → List Nat)
    (f : String → BufferAccess) :
    ∀ (names : List String) (reg : BufferRegistry),
      applyDispatch deviceOut names (mapAccess f reg) =
        mapAccess f (applyDispatch deviceOut names reg) := by
  intro names
  induction names with
  | nil => intro reg; rfl
  | cons n rest ih =>
      intro reg
      rw [applyDispatch, applyDispatch, List.foldl_cons, List.foldl_cons,
        lookupBuf_mapAccess]
      cases hl : lookupBuf reg n with
      | none => exact ih reg
      | some s =>
          have hupd := updateBuf_mapAccess f reg n { s with contents := deviceOut n }
          simp only [withAccess] at hupd
          simp [withAccess, hupd]
          exact ih _

/-- runSingleKernel is access-oblivious: reassigning every buffer's
access mode changes nothing but that ghost field of the final state. -/
theorem runSingleKernel_mapAccess (meta : MetaTable)
    (deviceOut : String → List Nat) (st : ImplState)
    (f : String → BufferAccess) (name : String) (x y z : Nat) :
    runSingleKernel meta deviceOut
        { buffers := mapAccess f st.buffers, kernels := st.kernels } name x y z =
      ⟨(runSingleKernel meta deviceOut st name x y z).error,
        { buffers := mapAccess f (runSingleKernel meta deviceOut st name x y z).state.buffers,
          kernels := (runSingleKernel meta deviceOut st name x y z).state.kernels },
        (runSingleKernel meta deviceOut st name x y z).setsAllocated,
        (runSingleKernel meta deviceOut st name x y z).trace⟩ := by
  cases hk : lookupKernel st.kernels name with
  | none => simp [runSingleKernel, hk]
  | some ks =>
    cases hm : lookupMod meta name with
    | none => simp [runSingleKernel, hk, hm]
    | some m =>
      by_cases hlen : ks.setLayouts.length = setCountOf m.buffers
      · cases hres : resolveBindings st.buffers m.buffers with
        | some e =>
            simp [runSingleKernel, hk, hm, hlen, hres,
              resolveBindings_mapAccess f st.buffers m.buffers]
        | none =>
            simp [runSingleKernel, hk, hm, hlen, hres,
              resolveBindings_mapAccess f st.buffers m.buffers,
              applyDispatch_mapAccess]
      · simp [runSingleKernel, hk, hm, hlen]

/-- setBytes never consults the access mode. -/
theorem setBytes_withAccess (s : BufferState) (a : BufferAccess) (d : List Nat) :
    setBytes (withAccess s a) d = ((setBytes s d).1, withAccess (setBytes s d).2 a) := by
  cases hbuf : s.buffer <;>
    simp [setBytes, withAccess, hbuf] <;> split <;> simp [hbuf]

/-- getBytes never consults the access mode. -/
theorem getBytes_withAccess (s : BufferState) (a : BufferAccess) (n : Nat) :
    getBytes (withAccess s a) n = getBytes s n := by
  cases hbuf : s.buffer <;>
    simp [getBytes, withAccess, hbuf]

/-- zeroFill never consults the access mode. -/
theorem zeroFill_withAccess (s : BufferState) (a : BufferAccess) :
    zeroFill (withAccess s a) = ((zeroFill s).1, withAccess (zeroFill s).2 a) := by
  cases hbuf : s.buffer <;>
    simp [zeroFill, withAccess, hbuf]

/-- alloc_or_resize never consults the access mode. -/
theorem alloc_or_resize_withAccess (ok : Bool) (fresh : Nat) (fc : List Nat)
    (s : BufferState) (a : BufferAccess) (bytes : Nat) :
    alloc_or_resize ok fresh fc (withAccess s a) bytes =
      ⟨withAccess (alloc_or_resize ok fresh fc s bytes).state a,
        (alloc_or_resize ok fresh fc s bytes).events,
        (alloc_or_resize ok fresh fc s bytes).error⟩ := by
  by_cases h0 : bytes = 0
  · simp [alloc_or_resize, h0, withAccess]
  · by_cases h1 : s.sizeBytes = bytes ∧ s.buffer.isSome
    · have h1' : (withAccess s a).sizeBytes = bytes ∧ (withAccess s a).buffer.isSome := h1
      simp [alloc_or_resize, h0, h1, h1', withAccess]
    · have h1' : ¬ ((withAccess s a).sizeBytes = bytes ∧ (withAccess s a).buffer.isSome) := h1
      cases hbuf : s.buffer with
      | none => cases ok <;> simp [alloc_or_resize, h0, h1, h1', withAccess, hbuf]
      | some v =>
          have hsz : s.sizeBytes ≠ bytes := fun he => h1 ⟨he, by simp [hbuf]⟩
          cases ok <;> simp [alloc_or_resize, h0, h1', withAccess, hbuf, hsz]

/-- resizeBytes never consults the access mode. -/
theorem resizeBytes_withAccess (ok : Bool) (fresh : Nat) (fc : List Nat)
    (s : BufferState) (a : BufferAccess) (bytes : Nat) (zi : Bool) :
    resizeBytes ok fresh fc (withAccess s a) bytes zi =
      ⟨withAccess (resizeBytes ok fresh fc s bytes zi).state a,
        (resizeBytes ok fresh fc s bytes zi).events,
        (resizeBytes ok fresh fc s bytes zi).error⟩ := by
  rw [resizeBytes, resizeBytes, alloc_or_resize_withAccess]
  cases herr : (alloc_or_resize ok fresh fc s bytes).error with
  | some e => simp
  | none =>
      cases zi with
      | false => simp
      | true =>
          rw [zeroFill_withAccess]
          cases hzf : zeroFill (alloc_or_resize ok fresh fc s bytes).state with
          | mk oe s1 => cases oe <;> simp [hzf]

/-- Claim C9: for every operation other than declare — setBytes,
getBytes, alloc_or_resize, resizeBytes, zeroFill, and buffer resolution
plus dispatch inside runSingleKernel — the result and error behaviour are
identical whatever the buffers' access modes: replacing the access mode
of any buffer (or of every buffer at once) changes nothing except that
stored mode itself, so two runs differing only in access modes behave
identically. -/
theorem access_mode_noninterference :
    (∀ (s : BufferState) (a : BufferAccess) (d : List Nat),
      setBytes (withAccess s a) d =
        ((setBytes s d).1, withAccess (setBytes s d).2 a))
    ∧ (∀ (s : BufferState) (a : BufferAccess) (n : Nat),
      getBytes (withAccess s a) n = getBytes s n)
    ∧ (∀ (ok : Bool) (fresh : Nat) (fc : List Nat) (s : BufferState)
        (a : BufferAccess) (bytes : Nat),
      alloc_or_resize ok fresh fc (withAccess s a) bytes =
        ⟨withAccess (alloc_or_resize ok fresh fc s bytes).state a,
          (alloc_or_resize ok fresh fc s bytes).events,
          (alloc_or_resize ok fresh fc s bytes).error⟩)
    ∧ (∀ (ok : Bool) (fresh : Nat) (fc : List Nat) (s : BufferState)
        (a : BufferAccess) (bytes : Nat) (zi : Bool),
      resizeBytes ok fresh fc (withAccess s a) bytes zi =
        ⟨withAccess (resizeBytes ok fresh fc s bytes zi).state a,
          (resizeBytes ok fresh fc s bytes zi).events,
          (resizeBytes ok fresh fc s bytes zi).error⟩)
    ∧ (∀ (s : BufferState) (a : BufferAccess),
      zeroFill (withAccess s a) = ((zeroFill s).1, withAccess (zeroFill s).2 a))
    ∧ (∀ (meta : MetaTable) (deviceOut : String → List Nat) (st : ImplState)
        (f : String → BufferAccess) (name : String) (x y z : Nat),
      runSingleKernel meta deviceOut
          { buffers := mapAccess f st.buffers, kernels := st.kernels } name x y z =
        ⟨(runSingleKernel meta deviceOut st name x y z).error,
          { buffers := mapAccess f (runSingleKernel meta deviceOut st name x y z).state.buffers,
            kernels := (runSingleKernel meta deviceOut st name x y z).state.kernels },
          (runSingleKernel meta deviceOut st name x y z).setsAllocated,
          (runSingleKernel meta deviceOut st name x y z).trace⟩) :=
  ⟨setBytes_withAccess, getBytes_withAccess, alloc_or_resize_withAccess,
    resizeBytes_withAccess, zeroFill_withAccess, runSingleKernel_mapAccess⟩

end FlowVk
